import Mathlib

/-!
Verification of the orbit-targets repository's blueprint-driven target
scripts.  Python strings are embedded as `List Char`; each script's
observable behavior (subprocess spawns, file writes, process exit) is
embedded as a pure function over an explicit world of inputs (parsed
command-line flags, environment values, blueprint lines, and an oracle
giving each spawned subprocess's return code, indexed by spawn order).
-/

namespace OrbitTargets

/-- Python strings are modelled as lists of characters. -/
abbrev Str := List Char

/-- Helper for Python `str.split`: prepend a character onto the first
piece of an already-split list. -/
def consHead (x : Char) : List Str → List Str
  | [] => [[x]]
  | h :: t => (x :: h) :: t

/-- Python `s.split(c)` (no maxsplit): split on every occurrence of `c`;
always returns at least one piece. -/
def pySplit (c : Char) : Str → List Str
  | [] => [[]]
  | x :: xs => if x = c then [] :: pySplit c xs else consHead x (pySplit c xs)

/-- Python `s.split(c, maxsplit=k)`: split on at most `k` occurrences of
`c`, leaving the remainder intact in the last piece. -/
def pySplitMax (c : Char) : Nat → Str → List Str
  | _, [] => [[]]
  | 0, l => [l]
  | k + 1, x :: xs =>
      if x = c then [] :: pySplitMax c k xs else consHead x (pySplitMax c (k + 1) xs)

/-- ASCII whitespace recognized by Python `str.strip()`. -/
def isPyWs (c : Char) : Bool :=
  c = ' ' || c = '\t' || c = '\n' || c = '\r' || c = '\x0b' || c = '\x0c'

/-- Python `s.strip()`: drop whitespace from both ends. -/
def pyStrip (s : Str) : Str :=
  ((s.dropWhile isPyWs).reverse.dropWhile isPyWs).reverse

/-- Python `s.lower()` (ASCII case fold suffices for the identifiers used). -/
def pyLower (s : Str) : Str := s.map Char.toLower

/-- Python `s.startswith(p)`. -/
def pyStarts (p s : Str) : Bool := List.isPrefixOf p s

/-- Python `'  ' * n` for an `int` count `n` (negative counts yield the
empty string). -/
def pyRepeat (s : Str) (n : Int) : Str :=
  match n with
  | .ofNat m => (List.replicate m s).flatten
  | .negSucc _ => []

/-! ## Generic (src/targets/xsim.py lines 39-58)

`Generic` holds a key/value pair parsed from a `KEY=VALUE` command-line
token.  `mod.Generic` (imported by the other scripts) is modelled from the
spec with the same fields and `KEY=VALUE` serialization. -/

structure Generic where
  key : Str
  val : Str
  deriving Repr, DecidableEq

/-- Embeds `Generic.from_str` (src/targets/xsim.py lines 47-53): split on the
first `=`; `None` when the token has no `=`. -/
def Generic.from_str (s : Str) : Option Generic :=
  match pySplitMax '=' 1 s with
  | [k, v] => some ⟨k, v⟩
  | _ => none

/-- Embeds `Generic.to_str` (src/targets/xsim.py lines 56-57): `key + '=' + val`. -/
def Generic.to_str (g : Generic) : Str := g.key ++ '=' :: g.val

/-! ### Facts about the split helpers -/

theorem pySplit_ne_nil (c : Char) (l : Str) : pySplit c l ≠ [] := by
  cases l with
  | nil => simp [pySplit]
  | cons x xs =>
    simp only [pySplit]
    split
    · simp
    · unfold consHead
      split <;> simp_all

theorem pySplitMax_ne_nil (c : Char) (k : Nat) (l : Str) : pySplitMax c k l ≠ [] := by
  cases l with
  | nil => simp [pySplitMax]
  | cons x xs =>
    cases k with
    | zero => simp [pySplitMax]
    | succ k =>
      simp only [pySplitMax]
      split
      · simp
      · unfold consHead
        split <;> simp_all

theorem consHead_length (x : Char) (ls : List Str) (h : ls ≠ []) :
    (consHead x ls).length = ls.length := by
  cases ls with
  | nil => exact absurd rfl h
  | cons a t => simp [consHead]

/-- Splitting with an exhausted budget returns the whole string. -/
theorem pySplitMax_zero (c : Char) (l : Str) : pySplitMax c 0 l = [l] := by
  cases l <;> simp [pySplitMax]

/-- Truncated split never produces more pieces than the full split. -/
theorem pySplitMax_length_le (c : Char) :
    ∀ (l : Str) (k : Nat), (pySplitMax c k l).length ≤ (pySplit c l).length := by
  intro l
  induction l with
  | nil => intro k; simp [pySplitMax, pySplit]
  | cons x xs ih =>
    intro k
    have hpos : 0 < (pySplit c xs).length :=
      List.length_pos.mpr (pySplit_ne_nil c xs)
    cases k with
    | zero =>
      rw [pySplitMax_zero]
      by_cases hx : x = c
      · simp only [pySplit, if_pos hx, List.length_cons, List.length_singleton,
          List.length_nil]
        omega
      · simp only [pySplit, if_neg hx]
        rw [consHead_length x _ (pySplit_ne_nil c xs)]
        simpa using hpos
    | succ k =>
      by_cases hx : x = c
      · simp only [pySplitMax, pySplit, if_pos hx, List.length_cons]
        simpa using ih k
      · simp only [pySplitMax, pySplit, if_neg hx]
        rw [consHead_length x _ (pySplitMax_ne_nil c (k+1) xs),
            consHead_length x _ (pySplit_ne_nil c xs)]
        exact ih (k+1)

/-- When the truncated split's budget is not exhausted, it agrees with the
full split. -/
theorem pySplitMax_eq_pySplit (c : Char) :
    ∀ (l : Str) (k : Nat), (pySplitMax c k l).length < k + 1 →
      pySplitMax c k l = pySplit c l := by
  intro l
  induction l with
  | nil => intro k _; simp [pySplitMax, pySplit]
  | cons x xs ih =>
    intro k hlen
    cases k with
    | zero => simp [pySplitMax] at hlen
    | succ k =>
      simp only [pySplitMax, pySplit] at hlen ⊢
      split at hlen
      · simp only [List.length_cons] at hlen
        rename_i hx
        simp only [if_pos hx]
        rw [ih k (by omega)]
      · rename_i hx
        simp only [if_neg hx]
        rw [consHead_length x _ (pySplitMax_ne_nil c (k+1) xs)] at hlen
        have hrec := ih (k+1) (by omega)
        rw [hrec]

/-- Splitting a string that does not contain the separator yields the
whole string as the single piece. -/
theorem pySplitMax_no_sep (c : Char) :
    ∀ (l : Str) (k : Nat), c ∉ l → pySplitMax c k l = [l] := by
  intro l
  induction l with
  | nil => intro k _; cases k <;> simp [pySplitMax]
  | cons x xs ih =>
    intro k hmem
    have hx : ¬ x = c := by
      intro h; exact hmem (by simp [h])
    have hxs : c ∉ xs := fun h => hmem (List.mem_cons_of_mem _ h)
    cases k with
    | zero => simp [pySplitMax]
    | succ k =>
      simp only [pySplitMax, if_neg hx]
      rw [ih (k+1) hxs]
      simp [consHead]

/-- Splitting a string of the form `a ++ c :: rest` where `a` is
separator-free peels off `a` as the first piece. -/
theorem pySplitMax_append (c : Char) (a : Str) (rest : Str) (k : Nat) (ha : c ∉ a) :
    pySplitMax c (k + 1) (a ++ c :: rest) = a :: pySplitMax c k rest := by
  induction a with
  | nil => simp [pySplitMax]
  | cons x xs ih =>
    have hx : ¬ x = c := by
      intro h; exact ha (by simp [h])
    have hxs : c ∉ xs := fun h => ha (List.mem_cons_of_mem _ h)
    simp only [List.cons_append, pySplitMax, if_neg hx, List.append_eq]
    rw [ih hxs]
    simp [consHead]

/-! ### Round-trip of `Generic` parsing (claim C4 support) -/

/-- The first `=`-split of a string containing `=` decomposes it as
`key ++ '=' ++ val`. -/
theorem pySplitMax_eq_mem (s : Str) (hmem : '=' ∈ s) :
    ∃ a b, pySplitMax '=' 1 s = [a, b] ∧ a ++ '=' :: b = s := by
  induction s with
  | nil => cases hmem
  | cons x xs ih =>
    by_cases hx : x = '='
    · subst hx
      refine ⟨[], xs, ?_, rfl⟩
      simp [pySplitMax, pySplitMax_zero]
    · have hmem' : '=' ∈ xs := by
        cases hmem with
        | head => exact absurd rfl hx
        | tail _ h => exact h
      obtain ⟨a, b, hsplit, heq⟩ := ih hmem'
      refine ⟨x :: a, b, ?_, by simp [heq]⟩
      simp only [pySplitMax, if_neg hx, hsplit, consHead]

/-- A token without `=` is not parsed into a `Generic`: `from_str`
returns `None` (it does not raise). -/
theorem Generic.from_str_no_eq (s : Str) (h : '=' ∉ s) :
    Generic.from_str s = none := by
  unfold Generic.from_str
  rw [pySplitMax_no_sep '=' s 1 h]

/-! ## Blueprint line parsing (claim C6)

Two parsers appear in the sources: the voodoo target splits each line with
`step.split('\t', maxsplit=3)` and unpacks into three names
(src/targets/voodoo.py line 193); the xsim target splits with
`rule.split('\t')` and unpacks into three names
(src/targets/xsim.py line 154).  In both, an unpack of a list whose length
is not exactly three raises a `ValueError`, modelled as `Except.error`. -/

/-- Embeds `fileset, lib, path = step.split('\t', maxsplit=3)`
(src/targets/voodoo.py line 193). -/
def voodooSplitLine (line : Str) : Except Unit (Str × Str × Str) :=
  match pySplitMax '\t' 3 line with
  | [fileset, lib, path] => .ok (fileset, lib, path)
  | _ => .error ()

/-- Embeds `fileset, identifier, path = rule.split('\t')`
(src/targets/xsim.py line 154). -/
def xsimSplitLine (line : Str) : Except Unit (Str × Str × Str) :=
  match pySplit '\t' line with
  | [fileset, identifier, path] => .ok (fileset, identifier, path)
  | _ => .error ()

theorem voodooSplitLine_ok_iff (line : Str) (a b c : Str) :
    voodooSplitLine line = .ok (a, b, c) ↔ pySplit '\t' line = [a, b, c] := by
  constructor
  · intro h
    unfold voodooSplitLine at h
    split at h
    · rename_i heq
      cases h
      have hlen : (pySplitMax '\t' 3 line).length < 4 := by
        rw [heq]; simp
      rw [← pySplitMax_eq_pySplit '\t' line 3 hlen, heq]
    · cases h
  · intro h
    have hlen : (pySplitMax '\t' 3 line).length < 4 := by
      calc (pySplitMax '\t' 3 line).length
          ≤ (pySplit '\t' line).length := pySplitMax_length_le '\t' line 3
        _ < 4 := by rw [h]; simp
    unfold voodooSplitLine
    rw [pySplitMax_eq_pySplit '\t' line 3 hlen, h]

theorem xsimSplitLine_ok_iff (line : Str) (a b c : Str) :
    xsimSplitLine line = .ok (a, b, c) ↔ pySplit '\t' line = [a, b, c] := by
  unfold xsimSplitLine
  constructor
  · intro h
    split at h
    · rename_i heq
      cases h
      exact heq
    · cases h
  · intro h
    rw [h]

theorem voodooSplitLine_short (line : Str)
    (h : (pySplit '\t' line).length < 3) : voodooSplitLine line = .error () := by
  unfold voodooSplitLine
  have hle := pySplitMax_length_le '\t' line 3
  split
  · rename_i heq
    rw [heq] at hle
    simp at hle
    omega
  · rfl

theorem xsimSplitLine_short (line : Str)
    (h : (pySplit '\t' line).length < 3) : xsimSplitLine line = .error () := by
  unfold xsimSplitLine
  split
  · rename_i heq
    rw [heq] at h
    simp at h
  · rfl

/-- Shorthand for embedding Lean string literals as Python strings. -/
def lit (s : String) : Str := s.toList

/-- Case analysis on an `Except` value, used to express a Python
statement that either raises/exits (the `error` side) or continues. -/
def exceptCase {ε α β : Type} (e : Except ε α) (g : ε → β) (f : α → β) : β :=
  match e with
  | .error r => g r
  | .ok a => f a

theorem exceptCase_errorRed {ε α β : Type} (x : ε) (g : ε → β) (f : α → β) :
    exceptCase (Except.error x) g f = g x := rfl

theorem exceptCase_okRed {ε α β : Type} (a : α) (g : ε → β) (f : α → β) :
    exceptCase (Except.ok a) g f = f a := rfl

theorem exceptCase_error {ε α β : Type} (e : Except ε α) (g : ε → β) (f : α → β)
    (x : ε) (h : e = .error x) : exceptCase e g f = g x := by
  rw [h]; rfl

theorem exceptCase_ok {ε α β : Type} (e : Except ε α) (g : ε → β) (f : α → β)
    (a : α) (h : e = .ok a) : exceptCase e g f = f a := by
  rw [h]; rfl

/-! ## The Tcl script emitter (src/targets/voodoo.py lines 44-81)

`Tcl` accumulates generated script text in `_data` (here `data`) with an
indentation counter `_indent` (here `ind`, a Python `int`).  `save`
writes the whole buffer to the file in one `f.write` call, modelled as
producing a single write event `(file, data)`. -/

/-- A token passed to `Tcl.push`: either a plain string (emitted wrapped
in double quotes) or an `Esc` wrapper (src/targets/voodoo.py lines 12-18,
emitted verbatim). -/
inductive Tok where
  | esc (s : Str)
  | str (s : Str)
  deriving Repr, DecidableEq

structure Tcl where
  file : Str
  data : Str
  ind : Int
  deriving Repr, DecidableEq

/-- Embeds `Tcl.__init__` (src/targets/voodoo.py lines 45-49). -/
def Tcl.new (path : Str) : Tcl := ⟨path, [], 0⟩

/-- Rendering of one token inside `Tcl.push`'s quoted branch
(src/targets/voodoo.py lines 55-60): the indent string is prepended
before every token, then the token follows, quoted unless `Esc`. -/
def Tok.render (ind : Int) : Tok → Str
  | .esc s => pyRepeat (lit "  ") ind ++ s ++ [' ']
  | .str s => pyRepeat (lit "  ") ind ++ ('"' :: (s ++ ['"'])) ++ [' ']

/-- Embeds `Tcl.push` with `raw=True` (src/targets/voodoo.py lines 52-53, 62). -/
def Tcl.pushRaw (t : Tcl) (code : Str) (endS : Str) : Tcl :=
  { t with data := t.data ++ (pyRepeat (lit "  ") t.ind ++ code) ++ endS }

/-- Embeds `Tcl.push` with `raw=False` (src/targets/voodoo.py lines 54-62). -/
def Tcl.pushCmd (t : Tcl) (code : List Tok) (endS : Str) : Tcl :=
  { t with data := t.data ++ (code.map (Tok.render t.ind)).flatten ++ endS }

/-- Embeds `Tcl.indent` (src/targets/voodoo.py lines 70-71). -/
def Tcl.indentOp (t : Tcl) : Tcl := { t with ind := t.ind + 1 }

/-- Embeds `Tcl.dedent` (src/targets/voodoo.py lines 73-77): decrement, then
clamp a negative depth back to zero. -/
def Tcl.dedent (t : Tcl) : Tcl :=
  let i := t.ind - 1
  { t with ind := if i < 0 then 0 else i }

/-- Embeds `Tcl.save` (src/targets/voodoo.py lines 65-68): the single write
event it produces, the whole buffer written to the file at once. -/
def Tcl.save (t : Tcl) : Str × Str := (t.file, t.data)

/-- The operations a script may perform on the emitter between
construction and `save`. -/
inductive TclOp where
  | pushRaw (code endS : Str)
  | pushCmd (code : List Tok) (endS : Str)
  | indentOp
  | dedent
  deriving Repr

def Tcl.apply (t : Tcl) : TclOp → Tcl
  | .pushRaw code endS => t.pushRaw code endS
  | .pushCmd code endS => t.pushCmd code endS
  | .indentOp => t.indentOp
  | .dedent => t.dedent

def Tcl.applyOps (t : Tcl) (ops : List TclOp) : Tcl := ops.foldl Tcl.apply t

/-- Every single emitter operation only appends to the buffer and keeps
the target file name. -/
theorem Tcl.apply_data (t : Tcl) (op : TclOp) :
    ∃ suf, (t.apply op).data = t.data ++ suf ∧ (t.apply op).file = t.file := by
  cases op with
  | pushRaw code endS =>
      refine ⟨pyRepeat (lit "  ") t.ind ++ code ++ endS, ?_, rfl⟩
      simp [Tcl.apply, Tcl.pushRaw]
  | pushCmd code endS =>
      refine ⟨(code.map (Tok.render t.ind)).flatten ++ endS, ?_, rfl⟩
      simp [Tcl.apply, Tcl.pushCmd]
  | indentOp => exact ⟨[], by simp [Tcl.apply, Tcl.indentOp], rfl⟩
  | dedent => exact ⟨[], by simp [Tcl.apply, Tcl.dedent], rfl⟩

/-- The buffer is append-only across any operation sequence. -/
theorem Tcl.applyOps_data (ops : List TclOp) :
    ∀ t : Tcl, ∃ suf, (t.applyOps ops).data = t.data ++ suf ∧
      (t.applyOps ops).file = t.file := by
  induction ops with
  | nil => intro t; exact ⟨[], by simp [Tcl.applyOps], rfl⟩
  | cons op rest ih =>
    intro t
    obtain ⟨s1, h1, hf1⟩ := Tcl.apply_data t op
    obtain ⟨s2, h2, hf2⟩ := ih (t.apply op)
    refine ⟨s1 ++ s2, ?_, ?_⟩
    · show (Tcl.applyOps (t.apply op) rest).data = _
      rw [h2, h1, List.append_assoc]
    · show (Tcl.applyOps (t.apply op) rest).file = _
      rw [hf2, hf1]

/-- A single operation keeps the indent depth non-negative. -/
theorem Tcl.apply_ind (t : Tcl) (op : TclOp) (h : 0 ≤ t.ind) :
    0 ≤ (t.apply op).ind := by
  cases op with
  | pushRaw code endS => simpa [Tcl.apply, Tcl.pushRaw] using h
  | pushCmd code endS => simpa [Tcl.apply, Tcl.pushCmd] using h
  | indentOp => simp only [Tcl.apply, Tcl.indentOp]; omega
  | dedent =>
      simp only [Tcl.apply, Tcl.dedent]
      split <;> omega

theorem Tcl.applyOps_ind (ops : List TclOp) :
    ∀ t : Tcl, 0 ≤ t.ind → 0 ≤ (t.applyOps ops).ind := by
  induction ops with
  | nil => intro t h; simpa [Tcl.applyOps] using h
  | cons op rest ih =>
    intro t h
    exact ih (t.apply op) (Tcl.apply_ind t op h)

/-! ## The voodoo blueprint loop (src/targets/voodoo.py lines 190-203)

Each blueprint line is split on tabs and dispatched on the fileset tag:
`VHDL`, `VLOG`, `SYSV` and `XDCF` lines push a corresponding `read_*`
command onto the Tcl buffer; any other tag pushes nothing.  A line that
does not split into exactly three fields raises `ValueError`. -/

/-- Wrap plain strings as quoted `Tcl.push` tokens. -/
def strToks (ss : List Str) : List Tok := ss.map Tok.str

/-- The newline `end` argument of `Tcl.push` (its default). -/
def nlStr : Str := lit "\n"

/-- One iteration of the voodoo blueprint loop
(src/targets/voodoo.py lines 192-202): four successive `if` tests on the
fileset tag, each possibly pushing one `read_*` command. -/
def voodooReadStep (line : Str) (t : Tcl) : Except Unit Tcl :=
  match voodooSplitLine line with
  | .error e => .error e
  | .ok (fileset, lib, path) =>
    let t1 := if fileset = lit "VHDL" then
        t.pushCmd (strToks [lit "read_vhdl", lit "-library", lib, path]) nlStr else t
    let t2 := if fileset = lit "VLOG" then
        t1.pushCmd (strToks [lit "read_verilog", lit "-library", lib, path]) nlStr else t1
    let t3 := if fileset = lit "SYSV" then
        t2.pushCmd (strToks [lit "read_verilog", lit "-sv", lit "-library", lib, path]) nlStr
      else t2
    let t4 := if fileset = lit "XDCF" then
        t3.pushCmd (strToks [lit "read_xdc", path]) nlStr else t3
    .ok t4

/-- The whole `for step in steps` loop over the blueprint lines
(src/targets/voodoo.py lines 190-203). -/
def voodooReadSources : List Str → Tcl → Except Unit Tcl
  | [], t => .ok t
  | line :: rest, t =>
    match voodooReadStep line t with
    | .error e => .error e
    | .ok t' => voodooReadSources rest t'

/-- A blueprint line made of three tab-separated fields. -/
def mkLine (a b c : Str) : Str := a ++ '\t' :: (b ++ '\t' :: c)

/-- A field is well formed when it contains no tab. -/
def tabFree (s : Str) : Prop := '\t' ∉ s

instance : DecidablePred tabFree := fun s =>
  inferInstanceAs (Decidable ('\t' ∉ s))

theorem voodooSplitLine_mkLine (a b c : Str)
    (ha : tabFree a) (hb : tabFree b) (hc : tabFree c) :
    voodooSplitLine (mkLine a b c) = .ok (a, b, c) := by
  unfold voodooSplitLine mkLine
  rw [pySplitMax_append '\t' a _ 2 ha, pySplitMax_append '\t' b _ 1 hb,
      pySplitMax_no_sep '\t' c 1 hc]

/-- Relation `Frame t t'`: going from emitter state `t` to `t'` only appended to
the buffer and preserved the indent depth and file name. -/
def Frame (t t' : Tcl) : Prop :=
  t'.ind = t.ind ∧ t'.file = t.file ∧ ∃ suf, t'.data = t.data ++ suf

theorem Frame.refl (t : Tcl) : Frame t t := ⟨rfl, rfl, [], by simp⟩

theorem Frame.trans {a b c : Tcl} (h1 : Frame a b) (h2 : Frame b c) : Frame a c := by
  obtain ⟨hi1, hf1, s1, hd1⟩ := h1
  obtain ⟨hi2, hf2, s2, hd2⟩ := h2
  exact ⟨hi2.trans hi1, hf2.trans hf1, s1 ++ s2,
    by rw [hd2, hd1, List.append_assoc]⟩

theorem Frame.pushCmd (t : Tcl) (code : List Tok) (endS : Str) :
    Frame t (t.pushCmd code endS) := by
  refine ⟨rfl, rfl, (code.map (Tok.render t.ind)).flatten ++ endS, ?_⟩
  simp [Tcl.pushCmd]

theorem Frame.ite (t : Tcl) (p : Prop) [Decidable p] (code : List Tok) (endS : Str) :
    Frame t (if p then t.pushCmd code endS else t) := by
  split
  · exact Frame.pushCmd t code endS
  · exact Frame.refl t

/-- The loop body neither touches the indent depth nor the file name, and
only appends to the buffer. -/
theorem voodooReadStep_frame (line : Str) (t t' : Tcl)
    (h : voodooReadStep line t = .ok t') : Frame t t' := by
  unfold voodooReadStep at h
  cases hsplit : voodooSplitLine line with
  | error e => rw [hsplit] at h; cases h
  | ok triple =>
    obtain ⟨fileset, lib, path⟩ := triple
    rw [hsplit] at h
    cases h
    exact (((Frame.ite t _ _ _).trans (Frame.ite _ _ _ _)).trans
      (Frame.ite _ _ _ _)).trans (Frame.ite _ _ _ _)

theorem voodooReadSources_frame :
    ∀ (lines : List Str) (t t' : Tcl),
      voodooReadSources lines t = .ok t' → Frame t t' := by
  intro lines
  induction lines with
  | nil =>
    intro t t' h
    cases h
    exact Frame.refl t
  | cons line rest ih =>
    intro t t' h
    unfold voodooReadSources at h
    cases hstep : voodooReadStep line t with
    | error e => rw [hstep] at h; cases h
    | ok t1 =>
      rw [hstep] at h
      exact (voodooReadStep_frame line t t1 hstep).trans (ih t1 t' h)

/-- The loop decomposes over list append. -/
theorem voodooReadSources_append (xs ys : List Str) :
    ∀ t : Tcl, voodooReadSources (xs ++ ys) t =
      match voodooReadSources xs t with
      | .error e => .error e
      | .ok t1 => voodooReadSources ys t1 := by
  have hcons : ∀ (l : Str) (ls : List Str) (s : Tcl),
      voodooReadSources (l :: ls) s =
        match voodooReadStep l s with
        | .error e => .error e
        | .ok t' => voodooReadSources ls t' := fun _ _ _ => rfl
  induction xs with
  | nil => intro t; simp [voodooReadSources]
  | cons line rest ih =>
    intro t
    rw [show (line :: rest) ++ ys = line :: (rest ++ ys) from rfl,
        hcons line (rest ++ ys) t, hcons line rest t]
    cases hstep : voodooReadStep line t with
    | error e => simp [hstep]
    | ok t1 =>
      simp only [hstep]
      exact ih t1

theorem voodooReadSources_append_ok (xs ys : List Str) (t t1 : Tcl)
    (h1 : voodooReadSources xs t = .ok t1) :
    voodooReadSources (xs ++ ys) t = voodooReadSources ys t1 := by
  rw [voodooReadSources_append xs ys t, h1]

theorem voodooReadSources_append_error (xs ys : List Str) (t : Tcl) (e : Unit)
    (h1 : voodooReadSources xs t = .error e) :
    voodooReadSources (xs ++ ys) t = .error e := by
  rw [voodooReadSources_append xs ys t, h1]

/-- Processing a single well-formed `VHDL` record appends exactly the
rendered `read_vhdl` command for that record. -/
theorem voodooReadStep_vhdl (libName path : Str) (t : Tcl)
    (hb : tabFree libName) (hc : tabFree path) :
    voodooReadStep (mkLine (lit "VHDL") libName path) t =
      .ok (t.pushCmd (strToks [lit "read_vhdl", lit "-library", libName, path]) nlStr) := by
  unfold voodooReadStep
  rw [voodooSplitLine_mkLine (lit "VHDL") libName path (by decide) hb hc]
  have hvl := eq_false (show ¬ (lit "VHDL" = lit "VLOG") by decide)
  have hsv := eq_false (show ¬ (lit "VHDL" = lit "SYSV") by decide)
  have hxd := eq_false (show ¬ (lit "VHDL" = lit "XDCF") by decide)
  have hvh := eq_true (show lit "VHDL" = lit "VHDL" from rfl)
  simp only [hvh, hvl, hsv, hxd, if_true, if_false]

/-! ## Observable run behavior

A script run is summarized by the subprocesses it spawned (in order, with
the return code the oracle assigned to each), the files it wrote, and how
the process ended.  A `crashed` outcome is an uncaught Python exception,
which also terminates the process with a non-zero code. -/

structure SpawnEvent where
  prog : Str
  args : List Str
  code : Nat
  deriving Repr, DecidableEq

structure WriteEvent where
  file : Str
  content : Str
  deriving Repr, DecidableEq

inductive Outcome where
  | exited (code : Nat)
  | crashed
  deriving Repr, DecidableEq

/-- Whether the process ended with a non-zero exit code (an uncaught
exception makes Python exit with code 1). -/
def Outcome.isFatal : Outcome → Bool
  | .exited n => n ≠ 0
  | .crashed => true

structure RunResult where
  spawns : List SpawnEvent
  writes : List WriteEvent
  outcome : Outcome
  deriving Repr

/-! ## The voodoo target pipeline (src/targets/voodoo.py lines 158-223)

Command-line parsing is modelled as the already-parsed flag values
(argparse restricts `--run` to the five step names).  Environment reads
of `ORBIT_TOP`/`ORBIT_BLUEPRINT` are modelled as present inputs; the
blueprint file's contents are given as its list of lines. -/

/-- The `Step` enum (src/targets/voodoo.py lines 21-41). -/
inductive VStep where
  | synth | impl | route | bit | pgm
  deriving Repr, DecidableEq

def VStep.val : VStep → Nat
  | .synth => 0
  | .impl => 1
  | .route => 2
  | .bit => 3
  | .pgm => 4

structure VoodooWorld where
  part : Str
  runStep : VStep
  generics : List Generic
  noBat : Bool
  onWindows : Bool
  top : Str
  blueprint : List Str
  oracle : Nat → Nat

/-- Embeds `synthesize` (src/targets/voodoo.py lines 84-92). -/
def voodooSynthesize (top part : Str) (gens : List Str) (t : Tcl) : Tcl :=
  ((((t.pushCmd (strToks ([lit "synth_design", lit "-top", top, lit "-part", part] ++ gens))
      nlStr).pushCmd
    (strToks [lit "write_checkpoint", lit "-force", lit "post_synth.dcp"]) nlStr).pushCmd
    (strToks [lit "report_timing_summary", lit "-file",
      lit "post_synth_timing_summary.rpt"]) nlStr).pushCmd
    (strToks [lit "report_utilization", lit "-file", lit "post_synth_util.rpt"]) nlStr)

/-- Embeds `implement` (src/targets/voodoo.py lines 95-112). -/
def voodooImplement (t : Tcl) : Tcl :=
  (((((((((((t.pushCmd (strToks [lit "opt_design"]) nlStr).pushCmd
    (strToks [lit "place_design"]) nlStr).pushCmd
    (strToks [lit "report_clock_utilization", lit "-file", lit "clock_util.rpt"]) nlStr).pushRaw
    (lit "if \x7b[get_property SLACK [get_timing_paths -max_paths 1 -nworst 1 -setup]] < 0\x7d \x7b")
      nlStr).indentOp.pushCmd
    (strToks [lit "puts",
      lit "info: found setup timing violations: running physical optimization ..."]) nlStr).pushCmd
    (strToks [lit "phys_opt_design"]) nlStr).dedent.pushRaw (lit "\x7d") nlStr).pushCmd
    (strToks [lit "write_checkpoint", lit "-force", lit "post_place.dcp"]) nlStr).pushCmd
    (strToks [lit "report_utilization", lit "-file", lit "post_place_util.rpt"]) nlStr).pushCmd
    (strToks [lit "report_timing_summary", lit "-file",
      lit "post_place_timing_summary.rpt"]) nlStr))

/-- Embeds `route` (src/targets/voodoo.py lines 115-125). -/
def voodooRoute (t : Tcl) : Tcl :=
  (((((t.pushCmd (strToks [lit "route_design", lit "-directive", lit "Explore"]) nlStr).pushCmd
    (strToks [lit "write_checkpoint", lit "-force", lit "post_route.dcp"]) nlStr).pushCmd
    (strToks [lit "report_route_status", lit "-file", lit "post_route_status.rpt"]) nlStr).pushCmd
    (strToks [lit "report_timing_summary", lit "-file",
      lit "post_route_timing_summary.rpt"]) nlStr).pushCmd
    (strToks [lit "report_power", lit "-file", lit "post_route_power.rpt"]) nlStr).pushCmd
    (strToks [lit "report_drc", lit "-file", lit "post_impl_drc.rpt"]) nlStr

/-- Embeds `bitstream` (src/targets/voodoo.py lines 128-134). -/
def voodooBitstream (top bitFile : Str) (t : Tcl) : Tcl :=
  (t.pushCmd (strToks [lit "write_verilog", lit "-force",
      lit "cpu_impl_netlist_" ++ top ++ lit ".v", lit "-mode", lit "timesim",
      lit "-sdf_anno", lit "true"]) nlStr).pushCmd
    (strToks [lit "write_bitstream", lit "-force", bitFile]) nlStr

/-- Embeds `program_device` (src/targets/voodoo.py lines 137-156). -/
def voodooProgramDevice (bitFile : Str) (t : Tcl) : Tcl :=
  (((((((((((t.pushCmd (strToks [lit "open_hw_manager"]) nlStr).pushCmd
    (strToks [lit "connect_hw_server", lit "-allow_non_jtag"]) nlStr).pushCmd
    (strToks [lit "open_hw_target"]) nlStr).pushRaw
    (lit "set device [lindex [get_hw_devices \"xc*\"] 0]") nlStr).pushCmd
    (strToks [lit "puts", lit "info: detected device $device ..."]) nlStr).pushCmd
    (strToks [lit "current_hw_device", lit "$device"]) nlStr).pushCmd
    (strToks [lit "refresh_hw_device", lit "-update_hw_probes", lit "false",
      lit "$device"]) nlStr).pushCmd
    [Tok.str (lit "set_property"), Tok.str (lit "PROBES.FILE"),
      Tok.esc (lit "\x7b\x7d"), Tok.str (lit "$device")] nlStr).pushCmd
    [Tok.str (lit "set_property"), Tok.str (lit "FULL_PROBES.FILE"),
      Tok.esc (lit "\x7b\x7d"), Tok.str (lit "$device")] nlStr).pushCmd
    (strToks [lit "set_property", lit "PROGRAM.FILE", bitFile, lit "$device"]) nlStr).pushCmd
    (strToks [lit "program_hw_devices", lit "$device"]) nlStr).pushCmd
    (strToks [lit "refresh_hw_device", lit "$device"]) nlStr

/-- Embeds the `tcl_generics` assembly (src/targets/voodoo.py lines 172-175);
`str(g)` on `mod.Generic` is modelled from the spec as its `KEY=VALUE`
serialization. -/
def voodooTclGenerics (w : VoodooWorld) : List Str :=
  w.generics.flatMap (fun g => [lit "-generic", g.to_str])

/-- Embeds the `VIVADO_CMD` selection (src/targets/voodoo.py line 182). -/
def voodooVivadoCmd (w : VoodooWorld) : Str :=
  if w.noBat = false && w.onWindows then lit "vivado.bat" else lit "vivado"

/-- The emitter right after the `config_webtalk` push
(src/targets/voodoo.py lines 184-187). -/
def voodooT1 : Tcl :=
  (Tcl.new (lit "orbit.tcl")).pushCmd
    (strToks [lit "config_webtalk", lit "-user", lit "off"]) nlStr

/-- The toolflow dispatch (src/targets/voodoo.py lines 205-215): each
stage whose threshold the selected step reaches is emitted. -/
def voodooFinalTcl (w : VoodooWorld) (t2 : Tcl) : Tcl :=
  let t3 := if VStep.synth.val ≤ w.runStep.val then
      voodooSynthesize w.top w.part (voodooTclGenerics w) t2 else t2
  let t4 := if VStep.impl.val ≤ w.runStep.val then voodooImplement t3 else t3
  let t5 := if VStep.route.val ≤ w.runStep.val then voodooRoute t4 else t4
  let t6 := if VStep.bit.val ≤ w.runStep.val then
      voodooBitstream w.top (w.top ++ lit ".bit") t5 else t5
  if VStep.pgm.val ≤ w.runStep.val then
    voodooProgramDevice (w.top ++ lit ".bit") t6 else t6

/-- The voodoo script body after argument parsing
(src/targets/voodoo.py lines 168-223).  Note that the final vivado
invocation's status is never checked: the child is spawned and the script
runs `exit(0)` regardless of the child's return code. -/
def voodooRun (w : VoodooWorld) : RunResult :=
  exceptCase (voodooReadSources w.blueprint voodooT1)
    (fun _ => ⟨[], [], .crashed⟩)
    (fun t2 =>
      ⟨[⟨voodooVivadoCmd w,
          [lit "-mode", lit "batch", lit "-nojournal", lit "-nolog",
            lit "-source", (voodooFinalTcl w t2).file], w.oracle 0⟩],
        [⟨((voodooFinalTcl w t2).save).1, ((voodooFinalTcl w t2).save).2⟩],
        .exited 0⟩)

theorem voodooSynthesize_file (top part : Str) (gens : List Str) (t : Tcl) :
    (voodooSynthesize top part gens t).file = t.file := by
  simp only [voodooSynthesize, Tcl.pushCmd]

theorem voodooImplement_file (t : Tcl) : (voodooImplement t).file = t.file := by
  simp only [voodooImplement, Tcl.pushCmd, Tcl.pushRaw, Tcl.indentOp, Tcl.dedent]

theorem voodooRoute_file (t : Tcl) : (voodooRoute t).file = t.file := by
  simp only [voodooRoute, Tcl.pushCmd]

theorem voodooBitstream_file (top bitFile : Str) (t : Tcl) :
    (voodooBitstream top bitFile t).file = t.file := by
  simp only [voodooBitstream, Tcl.pushCmd]

theorem voodooProgramDevice_file (bitFile : Str) (t : Tcl) :
    (voodooProgramDevice bitFile t).file = t.file := by
  simp only [voodooProgramDevice, Tcl.pushCmd, Tcl.pushRaw]

theorem ite_file (p : Prop) [Decidable p] (f : Tcl → Tcl) (t : Tcl)
    (hf : ∀ s : Tcl, (f s).file = s.file) : (if p then f t else t).file = t.file := by
  split
  · exact hf t
  · rfl

theorem voodooFinalTcl_file (w : VoodooWorld) (t2 : Tcl) :
    (voodooFinalTcl w t2).file = t2.file := by
  unfold voodooFinalTcl
  rw [ite_file _ _ _ (fun s => voodooProgramDevice_file (w.top ++ lit ".bit") s),
    ite_file _ _ _ (fun s => voodooBitstream_file w.top (w.top ++ lit ".bit") s),
    ite_file _ _ _ voodooRoute_file,
    ite_file _ _ _ voodooImplement_file,
    ite_file _ _ _ (fun s => voodooSynthesize_file w.top w.part (voodooTclGenerics w) s)]

/-- A successful voodoo run writes the Tcl script exactly once: one write
event, to `orbit.tcl`, carrying the whole accumulated buffer. -/
theorem voodooRun_writes (w : VoodooWorld) (t2 : Tcl)
    (h : voodooReadSources w.blueprint voodooT1 = .ok t2) :
    (voodooRun w).writes = [⟨lit "orbit.tcl", (voodooFinalTcl w t2).data⟩] := by
  unfold voodooRun
  rw [exceptCase_ok _ _ _ t2 h]
  have hfile : (voodooFinalTcl w t2).file = lit "orbit.tcl" := by
    rw [voodooFinalTcl_file]
    exact (voodooReadSources_frame w.blueprint voodooT1 t2 h).2.1
  show [(⟨(voodooFinalTcl w t2).file, (voodooFinalTcl w t2).data⟩ : WriteEvent)] = _
  rw [hfile]

/-- The text `Tcl.push` appends for one `read_vhdl` command pushed by the
voodoo blueprint loop at indent depth `ind`. -/
def readVhdlText (ind : Int) (libName path : Str) : Str :=
  ((strToks [lit "read_vhdl", lit "-library", libName, path]).map (Tok.render ind)).flatten
    ++ nlStr

/-- Any two well-formed `VHDL` records emit their `read_vhdl` commands in
blueprint order: whatever surrounds them, the final buffer decomposes with
the first record's command text strictly before the second's. -/
theorem voodooReadSources_order (t : Tcl) (xs ys zs : List Str)
    (la pa lb pb : Str) (t' : Tcl)
    (hla : tabFree la) (hpa : tabFree pa) (hlb : tabFree lb) (hpb : tabFree pb)
    (h : voodooReadSources
      (xs ++ mkLine (lit "VHDL") la pa :: (ys ++ mkLine (lit "VHDL") lb pb :: zs))
      t = .ok t') :
    ∃ A B C, t'.data =
      t.data ++ A ++ readVhdlText t.ind la pa ++ B ++ readVhdlText t.ind lb pb ++ C := by
  have hcons : ∀ (l : Str) (ls : List Str) (s : Tcl),
      voodooReadSources (l :: ls) s =
        match voodooReadStep l s with
        | .error e => .error e
        | .ok u => voodooReadSources ls u := fun _ _ _ => rfl
  cases h1 : voodooReadSources xs t with
  | error e =>
    rw [voodooReadSources_append_error xs _ t e h1] at h
    exact Except.noConfusion h
  | ok t1 =>
    rw [voodooReadSources_append_ok xs _ t t1 h1] at h
    have hone : voodooReadSources (mkLine (lit "VHDL") la pa :: (ys ++ mkLine (lit "VHDL") lb pb :: zs)) t1 =
        voodooReadSources (ys ++ mkLine (lit "VHDL") lb pb :: zs)
          (t1.pushCmd (strToks [lit "read_vhdl", lit "-library", la, pa]) nlStr) := by
      rw [hcons (mkLine (lit "VHDL") la pa) _ t1, voodooReadStep_vhdl la pa t1 hla hpa]
    rw [hone] at h
    set t2 := t1.pushCmd (strToks [lit "read_vhdl", lit "-library", la, pa]) nlStr with ht2
    cases h2 : voodooReadSources ys t2 with
    | error e =>
      rw [voodooReadSources_append_error ys _ t2 e h2] at h
      exact Except.noConfusion h
    | ok t3 =>
      rw [voodooReadSources_append_ok ys _ t2 t3 h2] at h
      have htwo : voodooReadSources (mkLine (lit "VHDL") lb pb :: zs) t3 =
          voodooReadSources zs
            (t3.pushCmd (strToks [lit "read_vhdl", lit "-library", lb, pb]) nlStr) := by
        rw [hcons (mkLine (lit "VHDL") lb pb) _ t3, voodooReadStep_vhdl lb pb t3 hlb hpb]
      rw [htwo] at h
      set t4 := t3.pushCmd (strToks [lit "read_vhdl", lit "-library", lb, pb]) nlStr with ht4
      obtain ⟨hi1, -, A, hd1⟩ := voodooReadSources_frame xs t t1 h1
      obtain ⟨hi3, -, B, hd3⟩ := voodooReadSources_frame ys t2 t3 h2
      obtain ⟨hi5, -, C, hd5⟩ := voodooReadSources_frame zs t4 t' h
      have hd2 : t2.data = t1.data ++ readVhdlText t1.ind la pa := by
        rw [ht2]
        simp only [Tcl.pushCmd, readVhdlText]
        rw [List.append_assoc]
      have hind2 : t2.ind = t1.ind := by rw [ht2]; rfl
      have hd4 : t4.data = t3.data ++ readVhdlText t3.ind lb pb := by
        rw [ht4]
        simp only [Tcl.pushCmd, readVhdlText]
        rw [List.append_assoc]
      refine ⟨A, B, C, ?_⟩
      rw [hd5, hd4, hd3, hd2, hd1]
      rw [hi3, hind2, hi1]

/-- A well-formed record whose tag is none of `VHDL`, `VLOG`, `SYSV`,
`XDCF` leaves the voodoo emitter untouched and raises no error. -/
theorem voodooReadStep_unknown (fs libName path : Str) (t : Tcl)
    (ha : tabFree fs) (hb : tabFree libName) (hc : tabFree path)
    (h1 : fs ≠ lit "VHDL") (h2 : fs ≠ lit "VLOG")
    (h3 : fs ≠ lit "SYSV") (h4 : fs ≠ lit "XDCF") :
    voodooReadStep (mkLine fs libName path) t = .ok t := by
  unfold voodooReadStep
  rw [voodooSplitLine_mkLine fs libName path ha hb hc]
  simp only [eq_false h1, eq_false h2, eq_false h3, eq_false h4, if_false]

/-! ## The vsim target classifier (src/targets/vsim.py lines 38-44)

`mod.Blueprint.parse` (not part of this repository's files) is modelled
from the spec: it yields records with `fset`, `lib` and `path` fields,
one per blueprint line, in file order.  The loop keeps only `VLOG` and
`SYSV` records, wrapping each as an `Hdl`. -/

/-- Modelled from the spec: a rule produced by `mod.Blueprint.parse`,
a `(fileset, library, path)` triple. -/
structure Rule where
  fset : Str
  lib : Str
  path : Str
  deriving Repr, DecidableEq

/-- Structure `Hdl` as used by vsim (constructed from a rule's three fields). -/
structure Hdl where
  fset : Str
  lib : Str
  path : Str
  deriving Repr, DecidableEq

/-- One iteration of the vsim `rtl_order` loop
(src/targets/vsim.py lines 39-44). -/
def vsimStep (acc : List Hdl) (rule : Rule) : List Hdl :=
  if rule.fset = lit "VLOG" then acc ++ [⟨rule.fset, rule.lib, rule.path⟩]
  else if rule.fset = lit "SYSV" then acc ++ [⟨rule.fset, rule.lib, rule.path⟩]
  else acc

/-- The whole vsim classification loop over the parsed blueprint. -/
def vsimRtlOrder (rules : List Rule) : List Hdl := rules.foldl vsimStep []

/-! ## The xsim target pipeline (src/targets/xsim.py)

The script's observable behavior after `getopt` parsing
(src/targets/xsim.py lines 104-264).  `invoke` (lines 66-80) spawns a
subprocess and, because every call site leaves `exit_on_err=True`,
terminates the script with `exit('ERROR: ...')` — Python exit code 1 —
as soon as a child returns a non-zero code.  A `-g` option's value is
passed through `Generic.from_str`, whose `None` result for a token
without `=` is appended to the generics list unchecked (line 123); it
crashes with an `AttributeError` only when later serialized. -/

namespace XsimT

structure World where
  generics : List (Option Generic)
  comp : Bool
  elaborateFlag : Bool
  sim : Bool
  scriptOnly : Bool
  simMode : Nat
  pyPath : Str
  bench : Option Str
  blueprint : List Str
  wdbExists : Bool
  log : List Str
  oracle : Nat → Nat

/-- Mutable run state: next spawn index and the events so far. -/
structure St where
  idx : Nat
  spawns : List SpawnEvent
  writes : List WriteEvent

def mkRes (st : St) (o : Outcome) : RunResult := ⟨st.spawns, st.writes, o⟩

/-- Embeds `invoke` (src/targets/xsim.py lines 66-80) at its call sites
(`exit_on_err=True`): spawn, then exit with code 1 on a bad return code. -/
def invoke (w : World) (prog : Str) (args : List Str) (st : St) : Except RunResult St :=
  if w.oracle st.idx ≠ 0 then
    .error (mkRes ⟨st.idx + 1, st.spawns ++ [⟨prog, args, w.oracle st.idx⟩], st.writes⟩
      (.exited 1))
  else .ok ⟨st.idx + 1, st.spawns ++ [⟨prog, args, w.oracle st.idx⟩], st.writes⟩

/-- Data collected from the blueprint (src/targets/xsim.py lines 143-147). -/
structure BP where
  vhdlSources : List (Str × Str)
  tclConfig : Option Str
  wfConfig : Option Str
  pyModel : Option Str

/-- One iteration of the blueprint loop (src/targets/xsim.py
lines 153-168): tab-split, strip the path, dispatch on the fileset tag. -/
def classifyLine (bench : Option Str) (bp : BP) (line : Str) : Except Unit BP :=
  match xsimSplitLine line with
  | .error e => .error e
  | .ok (fileset, identifier, path0) =>
    let path := pyStrip path0
    if fileset = lit "VHDL-RTL" ∨ fileset = lit "VHDL-SIM" then
      .ok { bp with vhdlSources := bp.vhdlSources ++ [(identifier, path)] }
    else if fileset = lit "XSIM-TCL" then
      .ok { bp with tclConfig := some path }
    else if fileset = lit "PY-MODEL" then
      .ok { bp with pyModel := some path }
    else
      match bench with
      | some b =>
        if fileset = lit "XSIM-WCFG" ∧ b ≠ [] ∧ pyLower identifier = pyLower b then
          .ok { bp with wfConfig := some path }
        else .ok bp
      | none => .ok bp

def readBlueprint (bench : Option Str) : List Str → BP → Except Unit BP
  | [], bp => .ok bp
  | line :: rest, bp =>
    match classifyLine bench bp line with
    | .error e => .error e
    | .ok bp' => readBlueprint bench rest bp'

/-- Embeds the `py_generics` assembly (src/targets/xsim.py lines 178-180); a `None`
entry raises `AttributeError`, modelled as `none`. -/
def pyGenerics : List (Option Generic) → Option (List Str)
  | [] => some []
  | none :: _ => none
  | some g :: rest => (pyGenerics rest).map (fun r => (lit "-g=" ++ g.to_str) :: r)

/-- Embeds the `gen_args` assembly (src/targets/xsim.py lines 205-207); a `None`
entry raises `AttributeError`, modelled as `none`. -/
def genArgs : List (Option Generic) → Option (List Str)
  | [] => some []
  | none :: _ => none
  | some g :: rest =>
      (genArgs rest).map (fun r => lit "-generic_top" :: g.to_str :: r)

/-- The software-model hook (src/targets/xsim.py lines 175-182). -/
def pyStage (w : World) (bp : BP) (st : St) : Except RunResult St :=
  match bp.pyModel with
  | none => .ok st
  | some pm =>
    match pyGenerics w.generics with
    | none => .error (mkRes st .crashed)
    | some pgen => invoke w w.pyPath (pm :: pgen) st

/-- The compile loop (src/targets/xsim.py lines 188-192). -/
def compileLoop (w : World) : List (Str × Str) → St → Except RunResult St
  | [], st => .ok st
  | (libId, path) :: rest, st =>
    match invoke w (lit "xvhdl") [lit "--incr", lit "--work", libId, path] st with
    | .error r => .error r
    | .ok st' => compileLoop w rest st'

def compStage (w : World) (bp : BP) (st : St) : Except RunResult St :=
  if w.comp then compileLoop w bp.vhdlSources st else .ok st

/-- The elaboration stage (src/targets/xsim.py lines 202-209). -/
def elaborationStage (w : World) (b : Str) (st : St) : Except RunResult St :=
  if w.elaborateFlag then
    match genArgs w.generics with
    | none => .error (mkRes st .crashed)
    | some ga =>
      invoke w (lit "xelab")
        ([lit "-debug", lit "typical", lit "-top", b, lit "-snapshot", b] ++ ga) st
  else .ok st

/-- Contents of `batch.tcl` (src/targets/xsim.py lines 222-223). -/
def batchTcl (bp : BP) : Str :=
  (match bp.wfConfig with
    | none => lit "log_wave -recursive *"
    | some wf => lit "open_wave_config " ++ wf) ++ lit "\nrun all\nexit\n"

/-- The log scan after a console-mode simulation
(src/targets/xsim.py lines 246-261). -/
def countLog (lines : List Str) : Nat × Nat :=
  lines.foldl (fun acc line =>
    if pyStarts (lit "#") line then acc
    else
      let low := pyLower line
      if pyStarts (lit "error: ") low then (acc.1 + 1, acc.2)
      else if pyStarts (lit "failure: ") low then (acc.1, acc.2 + 1)
      else acc) (0, 0)

/-- The argument vector of the final `xsim` invocation
(src/targets/xsim.py lines 215-243): `run_args` must come last. -/
def simXsimArgs (w : World) (bp : BP) (b : Str) : List Str :=
  let runArgs0 : List Str :=
    if bp.tclConfig.isSome ∧ w.simMode = 1 ∧ False then
      [lit "--tclbatch", bp.tclConfig.getD []]
    else if w.simMode = 2 then [] else [lit "-R"]
  let runArgs : List Str :=
    if w.simMode = 0 then [lit "--tclbatch", lit "batch.tcl"] else runArgs0
  let guiArgs : List Str := if w.simMode = 1 ∨ w.simMode = 2 then [lit "--gui"] else []
  let waveArgs : List Str :=
    match bp.wfConfig with
    | some wf => if w.simMode = 1 ∨ w.simMode = 2 then [lit "--view " ++ wf] else []
    | none => []
  let logArgs : List Str := if w.simMode = 0 then [lit "--log", b ++ lit ".log"] else []
  let snapshotArg : List Str := if w.simMode ≠ 2 then [b] else [b ++ lit ".wdb"]
  snapshotArg ++ guiArgs ++ waveArgs ++ logArgs ++ runArgs

/-- In console mode the script writes `batch.tcl` before running
(src/targets/xsim.py lines 221-226). -/
def simStagePre (w : World) (bp : BP) (st : St) : St :=
  if w.simMode = 0 then
    ⟨st.idx, st.spawns, st.writes ++ [⟨lit "batch.tcl", batchTcl bp⟩]⟩
  else st

/-- The simulation stage (src/targets/xsim.py lines 215-264) and the
script's fall-through `exit 0`. -/
def simStage (w : World) (bp : BP) (b : Str) (st : St) : RunResult :=
  if w.simMode = 2 ∧ w.wdbExists = false then mkRes (simStagePre w bp st) (.exited 1)
  else if w.sim then
    exceptCase (invoke w (lit "xsim") (simXsimArgs w bp b) (simStagePre w bp st))
      (fun r => r)
      (fun st2 =>
        if w.simMode = 0 then
          if 0 < (countLog w.log).1 ∨ 0 < (countLog w.log).2 then mkRes st2 (.exited 1)
          else mkRes st2 (.exited 0)
        else mkRes st2 (.exited 0))
  else mkRes (simStagePre w bp st) (.exited 0)

/-- The whole script after `getopt` parsing (src/targets/xsim.py
lines 128-264): toolflow check, blueprint, software model, compile,
testbench check, elaborate, simulate. -/
def run (w : World) : RunResult :=
  if (w.comp || w.elaborateFlag || w.sim) = false then mkRes ⟨0, [], []⟩ (.exited 0)
  else
    exceptCase (readBlueprint w.bench w.blueprint ⟨[], none, none, none⟩)
      (fun _ => mkRes ⟨0, [], []⟩ .crashed)
      (fun bp =>
        exceptCase (pyStage w bp ⟨0, [], []⟩) (fun r => r)
          (fun st1 =>
            if w.scriptOnly then mkRes st1 (.exited 0)
            else
              exceptCase (compStage w bp st1) (fun r => r)
                (fun st2 =>
                  match w.bench with
                  | none => mkRes st2 (.exited 1)
                  | some b =>
                    if b = [] then mkRes st2 (.exited 1)
                    else
                      exceptCase (elaborationStage w b st2) (fun r => r)
                        (fun st3 => simStage w bp b st3))))

/-! ### Failure propagation invariant

Every subprocess in this script is spawned through `invoke` with
`exit_on_err=True`, so a non-zero child return code immediately ends the
script with exit code 1: a failing spawn is always the last spawn of the
run, and the run's exit code is then 1. -/

def CleanSt (st : St) : Prop := ∀ s ∈ st.spawns, s.code = 0

def GoodRes (r : RunResult) : Prop :=
  ∀ pre s post, r.spawns = pre ++ s :: post → s.code ≠ 0 →
    post = [] ∧ r.outcome = .exited 1

theorem last_of_append_clean {α : Type} (P : α → Prop) :
    ∀ (pre xs : List α) (y s : α) (post : List α),
      (∀ x ∈ xs, P x) → xs ++ [y] = pre ++ s :: post → ¬ P s →
      post = [] ∧ s = y := by
  intro pre
  induction pre with
  | nil =>
    intro xs y s post hxs heq hs
    cases xs with
    | nil =>
      simp only [List.nil_append] at heq
      cases heq
      exact ⟨rfl, rfl⟩
    | cons x xs' =>
      simp only [List.cons_append, List.nil_append] at heq
      obtain ⟨hx, -⟩ := List.cons.injEq .. ▸ heq
      exact absurd (hx ▸ hxs x (List.mem_cons_self x xs')) hs
  | cons p pre' ih =>
    intro xs y s post hxs heq hs
    cases xs with
    | nil =>
      simp only [List.nil_append, List.cons_append] at heq
      obtain ⟨-, htl⟩ := List.cons.injEq .. ▸ heq
      have : (pre' ++ s :: post).length = 0 := by rw [← htl]; rfl
      simp at this
    | cons x xs' =>
      simp only [List.cons_append] at heq
      obtain ⟨-, htl⟩ := List.cons.injEq .. ▸ heq
      exact ih xs' y s post (fun a ha => hxs a (List.mem_cons_of_mem x ha)) htl hs

theorem goodRes_of_clean (r : RunResult) (h : ∀ s ∈ r.spawns, s.code = 0) :
    GoodRes r := by
  intro pre s post heq hs
  refine absurd (h s ?_) hs
  rw [heq]
  exact List.mem_append_right pre (List.mem_cons_self s post)

theorem goodRes_of_cleanSt (st : St) (o : Outcome) (h : CleanSt st) :
    GoodRes (mkRes st o) :=
  goodRes_of_clean (mkRes st o) (fun s hs => h s hs)

theorem invoke_ok_clean (w : World) (p : Str) (a : List Str) (st st' : St)
    (hc : CleanSt st) (h : invoke w p a st = .ok st') : CleanSt st' := by
  unfold invoke at h
  split at h
  · cases h
  · cases h
    rename_i hrc
    intro s hmem
    rcases List.mem_append.mp hmem with hmem | hmem
    · exact hc s hmem
    · simp only [List.mem_singleton] at hmem
      subst hmem
      simpa using hrc

theorem invoke_error_good (w : World) (p : Str) (a : List Str) (st : St)
    (r : RunResult) (hc : CleanSt st) (h : invoke w p a st = .error r) :
    GoodRes r := by
  unfold invoke at h
  split at h
  · cases h
    rename_i hrc
    intro pre s post heq hs
    have := last_of_append_clean (fun x : SpawnEvent => x.code = 0) pre st.spawns
      ⟨p, a, w.oracle st.idx⟩ s post (fun x hx => hc x hx) heq hs
    exact ⟨this.1, rfl⟩
  · cases h

theorem pyStage_clean_good (w : World) (bp : BP) (st : St) (hc : CleanSt st) :
    (∀ st', pyStage w bp st = .ok st' → CleanSt st') ∧
    (∀ r, pyStage w bp st = .error r → GoodRes r) := by
  unfold pyStage
  constructor
  · intro st' h
    split at h
    · cases h; exact hc
    · split at h
      · cases h
      · exact invoke_ok_clean w _ _ st st' hc h
  · intro r h
    split at h
    · cases h
    · split at h
      · cases h
        exact goodRes_of_cleanSt st .crashed hc
      · exact invoke_error_good w _ _ st r hc h

theorem compileLoop_clean_good (w : World) :
    ∀ (srcs : List (Str × Str)) (st : St), CleanSt st →
      (∀ st', compileLoop w srcs st = .ok st' → CleanSt st') ∧
      (∀ r, compileLoop w srcs st = .error r → GoodRes r) := by
  intro srcs
  induction srcs with
  | nil =>
    intro st hc
    exact ⟨fun st' h => by cases h; exact hc, fun r h => by cases h⟩
  | cons src rest ih =>
    intro st hc
    obtain ⟨libId, path⟩ := src
    constructor
    · intro st' h
      unfold compileLoop at h
      cases hinv : invoke w (lit "xvhdl") [lit "--incr", lit "--work", libId, path] st with
      | error r => rw [hinv] at h; cases h
      | ok st1 =>
        rw [hinv] at h
        exact (ih st1 (invoke_ok_clean w _ _ st st1 hc hinv)).1 st' h
    · intro r h
      unfold compileLoop at h
      cases hinv : invoke w (lit "xvhdl") [lit "--incr", lit "--work", libId, path] st with
      | error r0 =>
        rw [hinv] at h
        cases h
        exact invoke_error_good w _ _ st r hc hinv
      | ok st1 =>
        rw [hinv] at h
        exact (ih st1 (invoke_ok_clean w _ _ st st1 hc hinv)).2 r h

theorem compStage_clean_good (w : World) (bp : BP) (st : St) (hc : CleanSt st) :
    (∀ st', compStage w bp st = .ok st' → CleanSt st') ∧
    (∀ r, compStage w bp st = .error r → GoodRes r) := by
  unfold compStage
  split
  · exact compileLoop_clean_good w bp.vhdlSources st hc
  · exact ⟨fun st' h => by cases h; exact hc, fun r h => by cases h⟩

theorem elaborationStage_clean_good (w : World) (b : Str) (st : St) (hc : CleanSt st) :
    (∀ st', elaborationStage w b st = .ok st' → CleanSt st') ∧
    (∀ r, elaborationStage w b st = .error r → GoodRes r) := by
  unfold elaborationStage
  split
  · constructor
    · intro st' h
      split at h
      · cases h
      · exact invoke_ok_clean w _ _ st st' hc h
    · intro r h
      split at h
      · cases h
        exact goodRes_of_cleanSt st .crashed hc
      · exact invoke_error_good w _ _ st r hc h
  · exact ⟨fun st' h => by cases h; exact hc, fun r h => by cases h⟩

/-- Case combinator: an `exceptCase` result is `GoodRes` when both sides
are. -/
theorem goodRes_exceptCase {ε α : Type} (e : Except ε α) (g : ε → RunResult)
    (f : α → RunResult)
    (h1 : ∀ x, e = .error x → GoodRes (g x))
    (h2 : ∀ a, e = .ok a → GoodRes (f a)) :
    GoodRes (exceptCase e g f) := by
  cases e with
  | error x => exact h1 x rfl
  | ok a => exact h2 a rfl

theorem simStagePre_clean (w : World) (bp : BP) (st : St) (hc : CleanSt st) :
    CleanSt (simStagePre w bp st) := by
  unfold simStagePre
  split
  · exact fun s hmem => hc s hmem
  · exact hc

theorem simStage_good (w : World) (bp : BP) (b : Str) (st : St) (hc : CleanSt st) :
    GoodRes (simStage w bp b st) := by
  unfold simStage
  have hc1 : CleanSt (simStagePre w bp st) := simStagePre_clean w bp st hc
  split
  · exact goodRes_of_cleanSt _ _ hc1
  · split
    · refine goodRes_exceptCase _ _ _ ?_ ?_
      · intro r hinv
        exact invoke_error_good w _ _ _ r hc1 hinv
      · intro st2 hinv
        have hclean2 : CleanSt st2 := invoke_ok_clean w _ _ _ st2 hc1 hinv
        split
        · split
          · exact goodRes_of_cleanSt st2 _ hclean2
          · exact goodRes_of_cleanSt st2 _ hclean2
        · exact goodRes_of_cleanSt st2 _ hclean2
    · exact goodRes_of_cleanSt _ _ hc1

/-- Over any inputs, a subprocess whose return code is non-zero is the
last subprocess the xsim target spawns, and the script then exits 1. -/
theorem xsimRun_good (w : World) : GoodRes (run w) := by
  unfold run
  have hc0 : CleanSt ⟨0, [], []⟩ := by intro s h; cases h
  split
  · exact goodRes_of_clean _ (by intro s h; cases h)
  · refine goodRes_exceptCase _ _ _ ?_ ?_
    · intro x _
      exact goodRes_of_clean _ (by intro s h; cases h)
    · intro bp _
      refine goodRes_exceptCase _ _ _ ?_ ?_
      · intro r hpy
        exact (pyStage_clean_good w bp _ hc0).2 r hpy
      · intro st1 hpy
        have hc1 := (pyStage_clean_good w bp _ hc0).1 st1 hpy
        split
        · exact goodRes_of_cleanSt st1 _ hc1
        · refine goodRes_exceptCase _ _ _ ?_ ?_
          · intro r hcomp
            exact (compStage_clean_good w bp st1 hc1).2 r hcomp
          · intro st2 hcomp
            have hc2 := (compStage_clean_good w bp st1 hc1).1 st2 hcomp
            cases w.bench with
            | none => exact goodRes_of_cleanSt st2 _ hc2
            | some b =>
              show GoodRes (if b = [] then mkRes st2 (.exited 1)
                else exceptCase (elaborationStage w b st2) (fun r => r)
                  (fun st3 => simStage w bp b st3))
              by_cases hb : b = []
              · rw [if_pos hb]
                exact goodRes_of_cleanSt st2 _ hc2
              · rw [if_neg hb]
                refine goodRes_exceptCase _ _ _ ?_ ?_
                · intro r hel
                  exact (elaborationStage_clean_good w b st2 hc2).2 r hel
                · intro st3 hel
                  exact simStage_good w bp b st3
                    ((elaborationStage_clean_good w b st2 hc2).1 st3 hel)

/-! ### No elaboration or simulation subprocess without a testbench

Before the testbench check (src/targets/xsim.py line 194) the script can
only have spawned the software model (`PYTHON_PATH`) and `xvhdl` compile
subprocesses; `xelab` and `xsim` come strictly after the check. -/

def ProgsOk (w : World) (l : List SpawnEvent) : Prop :=
  ∀ s ∈ l, s.prog = w.pyPath ∨ s.prog = lit "xvhdl"

theorem invoke_progs (w : World) (p : Str) (a : List Str) (st : St)
    (hp : p = w.pyPath ∨ p = lit "xvhdl") (h : ProgsOk w st.spawns) :
    (∀ st', invoke w p a st = .ok st' → ProgsOk w st'.spawns) ∧
    (∀ r, invoke w p a st = .error r →
      ProgsOk w r.spawns ∧ r.outcome.isFatal = true) := by
  unfold invoke
  constructor
  · intro st' heq
    split at heq
    · cases heq
    · cases heq
      intro s hmem
      rcases List.mem_append.mp hmem with hmem | hmem
      · exact h s hmem
      · simp only [List.mem_singleton] at hmem
        subst hmem
        exact hp
  · intro r heq
    split at heq
    · cases heq
      refine ⟨?_, rfl⟩
      intro s hmem
      rcases List.mem_append.mp hmem with hmem | hmem
      · exact h s hmem
      · simp only [List.mem_singleton] at hmem
        subst hmem
        exact hp
    · cases heq

theorem pyStage_progs (w : World) (bp : BP) (st : St) (h : ProgsOk w st.spawns) :
    (∀ st', pyStage w bp st = .ok st' → ProgsOk w st'.spawns) ∧
    (∀ r, pyStage w bp st = .error r →
      ProgsOk w r.spawns ∧ r.outcome.isFatal = true) := by
  unfold pyStage
  constructor
  · intro st' heq
    split at heq
    · cases heq; exact h
    · split at heq
      · cases heq
      · exact (invoke_progs w _ _ st (Or.inl rfl) h).1 st' heq
  · intro r heq
    split at heq
    · cases heq
    · split at heq
      · cases heq
        exact ⟨h, rfl⟩
      · exact (invoke_progs w _ _ st (Or.inl rfl) h).2 r heq

theorem compileLoop_progs (w : World) :
    ∀ (srcs : List (Str × Str)) (st : St), ProgsOk w st.spawns →
      (∀ st', compileLoop w srcs st = .ok st' → ProgsOk w st'.spawns) ∧
      (∀ r, compileLoop w srcs st = .error r →
        ProgsOk w r.spawns ∧ r.outcome.isFatal = true) := by
  intro srcs
  induction srcs with
  | nil =>
    intro st h
    exact ⟨fun st' heq => by cases heq; exact h, fun r heq => by cases heq⟩
  | cons src rest ih =>
    intro st h
    obtain ⟨libId, path⟩ := src
    constructor
    · intro st' heq
      unfold compileLoop at heq
      cases hinv : invoke w (lit "xvhdl") [lit "--incr", lit "--work", libId, path] st with
      | error r0 => rw [hinv] at heq; cases heq
      | ok st1 =>
        rw [hinv] at heq
        exact (ih st1 ((invoke_progs w _ _ st (Or.inr rfl) h).1 st1 hinv)).1 st' heq
    · intro r heq
      unfold compileLoop at heq
      cases hinv : invoke w (lit "xvhdl") [lit "--incr", lit "--work", libId, path] st with
      | error r0 =>
        rw [hinv] at heq
        cases heq
        exact (invoke_progs w _ _ st (Or.inr rfl) h).2 r hinv
      | ok st1 =>
        rw [hinv] at heq
        exact (ih st1 ((invoke_progs w _ _ st (Or.inr rfl) h).1 st1 hinv)).2 r heq

theorem compStage_progs (w : World) (bp : BP) (st : St) (h : ProgsOk w st.spawns) :
    (∀ st', compStage w bp st = .ok st' → ProgsOk w st'.spawns) ∧
    (∀ r, compStage w bp st = .error r →
      ProgsOk w r.spawns ∧ r.outcome.isFatal = true) := by
  unfold compStage
  split
  · exact compileLoop_progs w bp.vhdlSources st h
  · exact ⟨fun st' heq => by cases heq; exact h, fun r heq => by cases heq⟩

/-- With the testbench environment value unset (or empty), any run that
requests a toolflow (and is not `--script`-only) ends fatally, and every
subprocess it spawned was a software-model or `xvhdl` compile call: no
`xelab`, no `xsim`. -/
theorem xsimRun_noBench (w : World)
    (hbench : w.bench = none ∨ w.bench = some [])
    (hso : w.scriptOnly = false)
    (htf : (w.comp || w.elaborateFlag || w.sim) = true) :
    (run w).outcome.isFatal = true ∧ ProgsOk w (run w).spawns := by
  unfold run
  have hcond : ¬ ((w.comp || w.elaborateFlag || w.sim) = false) := by
    rw [htf]; simp
  rw [if_neg hcond]
  cases hrb : readBlueprint w.bench w.blueprint ⟨[], none, none, none⟩ with
  | error e =>
    rw [exceptCase_errorRed]
    exact ⟨rfl, fun s hs => by cases hs⟩
  | ok bp =>
    rw [exceptCase_okRed]
    have hp0 : ProgsOk w (St.mk 0 [] []).spawns := fun s hs => by cases hs
    cases hpy : pyStage w bp ⟨0, [], []⟩ with
    | error r =>
      rw [exceptCase_errorRed]
      have := (pyStage_progs w bp _ hp0).2 r hpy
      exact ⟨this.2, this.1⟩
    | ok st1 =>
      rw [exceptCase_okRed]
      have hp1 := (pyStage_progs w bp _ hp0).1 st1 hpy
      rw [if_neg (by rw [hso]; simp : ¬ (w.scriptOnly = true))]
      cases hcomp : compStage w bp st1 with
      | error r =>
        rw [exceptCase_errorRed]
        have := (compStage_progs w bp st1 hp1).2 r hcomp
        exact ⟨this.2, this.1⟩
      | ok st2 =>
        rw [exceptCase_okRed]
        have hp2 := (compStage_progs w bp st1 hp1).1 st2 hcomp
        rcases hbench with hb | hb
        · rw [hb]
          exact ⟨rfl, hp2⟩
        · rw [hb]
          show (if ([] : Str) = [] then mkRes st2 (.exited 1)
            else exceptCase (elaborationStage w [] st2) (fun r => r)
              (fun st3 => simStage w bp [] st3)).outcome.isFatal = true ∧ _
          rw [if_pos rfl]
          exact ⟨rfl, hp2⟩

/-- Evaluating `gen_args` on a list of successfully parsed generics gives the flat
list of `-generic_top KEY=VALUE` pairs, in order. -/
theorem genArgs_map_some (gs : List Generic) :
    genArgs (gs.map some) =
      some (gs.flatMap (fun g => [lit "-generic_top", g.to_str])) := by
  induction gs with
  | nil => rfl
  | cons g rest ih =>
    show genArgs (some g :: rest.map some) = _
    unfold genArgs
    rw [ih]
    rfl

theorem invoke_spawns (w : World) (p : Str) (a : List Str) (st : St) :
    (∀ st', invoke w p a st = .ok st' →
      st'.spawns = st.spawns ++ [⟨p, a, w.oracle st.idx⟩]) ∧
    (∀ r, invoke w p a st = .error r →
      r.spawns = st.spawns ++ [⟨p, a, w.oracle st.idx⟩]) := by
  unfold invoke
  constructor
  · intro st' heq
    split at heq
    · cases heq
    · cases heq; rfl
  · intro r heq
    split at heq
    · cases heq; rfl
    · cases heq

/-- The simulation stage only appends further spawn events. -/
theorem simStage_spawns_ext (w : World) (bp : BP) (b : Str) (st : St) :
    ∃ extra, (simStage w bp b st).spawns = st.spawns ++ extra := by
  have hpre : (simStagePre w bp st).spawns = st.spawns := by
    unfold simStagePre
    split <;> rfl
  unfold simStage
  split
  · exact ⟨[], by show (simStagePre w bp st).spawns = _; rw [hpre, List.append_nil]⟩
  · split
    · cases hinv : invoke w (lit "xsim") (simXsimArgs w bp b) (simStagePre w bp st) with
      | error r =>
        rw [exceptCase_errorRed]
        refine ⟨[⟨lit "xsim", simXsimArgs w bp b, w.oracle (simStagePre w bp st).idx⟩], ?_⟩
        rw [(invoke_spawns w _ _ _).2 r hinv, hpre]
      | ok st2 =>
        rw [exceptCase_okRed]
        have hsp2 := (invoke_spawns w _ _ _).1 st2 hinv
        refine ⟨[⟨lit "xsim", simXsimArgs w bp b, w.oracle (simStagePre w bp st).idx⟩], ?_⟩
        split
        · split
          · show st2.spawns = _
            rw [hsp2, hpre]
          · show st2.spawns = _
            rw [hsp2, hpre]
        · show st2.spawns = _
          rw [hsp2, hpre]
    · exact ⟨[], by show (simStagePre w bp st).spawns = _; rw [hpre, List.append_nil]⟩

/-- When the blueprint is empty, elaboration is requested and all `-g`
tokens parsed, the first subprocess the script spawns is `xelab` with the
base arguments followed by exactly the `-generic_top KEY=VALUE` pairs in
command-line order. -/
theorem xsimRun_xelab_first (w : World) (b : Str) (gs : List Generic)
    (hbp : w.blueprint = [])
    (hso : w.scriptOnly = false)
    (hef : w.elaborateFlag = true)
    (hbench : w.bench = some b) (hbne : b ≠ [])
    (hgen : w.generics = gs.map some) :
    ∃ rest, (run w).spawns =
      ⟨lit "xelab",
        [lit "-debug", lit "typical", lit "-top", b, lit "-snapshot", b] ++
          gs.flatMap (fun g => [lit "-generic_top", g.to_str]),
        w.oracle 0⟩ :: rest := by
  unfold run
  have hcond : ¬ ((w.comp || w.elaborateFlag || w.sim) = false) := by
    rw [hef]; simp
  rw [if_neg hcond, hbp]
  have hrb : readBlueprint w.bench [] ⟨[], none, none, none⟩ =
      .ok ⟨[], none, none, none⟩ := rfl
  rw [exceptCase_ok _ _ _ _ hrb]
  have hpys : pyStage w ⟨[], none, none, none⟩ ⟨0, [], []⟩ = .ok ⟨0, [], []⟩ := rfl
  rw [exceptCase_ok _ _ _ _ hpys]
  rw [if_neg (by rw [hso]; simp : ¬ (w.scriptOnly = true))]
  have hcs : compStage w ⟨[], none, none, none⟩ ⟨0, [], []⟩ = .ok ⟨0, [], []⟩ := by
    unfold compStage
    split
    · rfl
    · rfl
  rw [exceptCase_ok _ _ _ _ hcs, hbench]
  show ∃ rest, (if b = [] then mkRes ⟨0, [], []⟩ (.exited 1)
    else exceptCase (elaborationStage w b ⟨0, [], []⟩) (fun r => r)
      (fun st3 => simStage w ⟨[], none, none, none⟩ b st3)).spawns = _
  rw [if_neg hbne]
  have hel : elaborationStage w b ⟨0, [], []⟩ =
      invoke w (lit "xelab")
        ([lit "-debug", lit "typical", lit "-top", b, lit "-snapshot", b] ++
          gs.flatMap (fun g => [lit "-generic_top", g.to_str])) ⟨0, [], []⟩ := by
    unfold elaborationStage
    rw [if_pos (by rw [hef] : w.elaborateFlag = true), hgen, genArgs_map_some gs]
  rw [hel]
  cases hinv : invoke w (lit "xelab")
      ([lit "-debug", lit "typical", lit "-top", b, lit "-snapshot", b] ++
        gs.flatMap (fun g => [lit "-generic_top", g.to_str])) ⟨0, [], []⟩ with
  | error r =>
    rw [exceptCase_errorRed]
    refine ⟨[], ?_⟩
    rw [(invoke_spawns w _ _ _).2 r hinv]
    rfl
  | ok st3 =>
    rw [exceptCase_okRed]
    obtain ⟨extra, hext⟩ := simStage_spawns_ext w ⟨[], none, none, none⟩ b st3
    refine ⟨extra, ?_⟩
    rw [hext, (invoke_spawns w _ _ _).1 st3 hinv]
    rfl

/-- A `None` anywhere in the generics list makes `gen_args` assembly
raise (`AttributeError` on `None.to_str`). -/
theorem genArgs_none (gs gt : List (Option Generic)) :
    genArgs (gs ++ none :: gt) = none := by
  induction gs with
  | nil => rfl
  | cons o rest ih =>
    cases o with
    | none => rfl
    | some g =>
      show genArgs (some g :: (rest ++ none :: gt)) = none
      unfold genArgs
      rw [ih]
      rfl

/-- Likewise for the software-model generics assembly. -/
theorem pyGenerics_none (gs gt : List (Option Generic)) :
    pyGenerics (gs ++ none :: gt) = none := by
  induction gs with
  | nil => rfl
  | cons o rest ih =>
    cases o with
    | none => rfl
    | some g =>
      show pyGenerics (some g :: (rest ++ none :: gt)) = none
      unfold pyGenerics
      rw [ih]
      rfl

end XsimT

/-! ## The gsim target's simulation command (src/targets/gsim.py lines 80-88)

The `ghdl -r` argument vector: `-r`, the GHDL options, the fixed work
library / testbench / vcd / severity block, then one `-gKEY=VALUE` token
per CLI generic override, in order (`mod.Generic.to_str` is modelled from
the spec as `KEY=VALUE`). -/

def gsimSimArgs (ghdlOpts : List Str) (library tbName severity : Str)
    (gens : List Generic) : List Str :=
  [lit "-r"] ++ ghdlOpts ++
    [lit "--work=" ++ library, tbName, lit "--vcd=" ++ (tbName ++ lit ".vcd"),
      lit "--assert-level=" ++ severity] ++
    gens.map (fun g => lit "-g" ++ g.to_str)

/-- Each CLI generic appears in the `ghdl -r` invocation exactly at its
own slot after the fixed arguments: none dropped, order preserved. -/
theorem gsimSimArgs_each (opts : List Str) (library tbName severity : Str)
    (gens : List Generic) :
    (gsimSimArgs opts library tbName severity gens).length =
      opts.length + 5 + gens.length ∧
    ∀ i, ∀ h : i < gens.length,
      (gsimSimArgs opts library tbName severity gens)[opts.length + 5 + i]? =
        some (lit "-g" ++ (gens.get ⟨i, h⟩).to_str) := by
  constructor
  · simp only [gsimSimArgs, List.length_append, List.length_cons,
      List.length_singleton, List.length_map, List.length_nil]
    omega
  · intro i h
    unfold gsimSimArgs
    rw [List.getElem?_append_right (by
      simp only [List.length_append, List.length_cons, List.length_singleton,
        List.length_nil]
      omega)]
    have hidx : opts.length + 5 + i -
        ([lit "-r"] ++ opts ++
          [lit "--work=" ++ library, tbName, lit "--vcd=" ++ (tbName ++ lit ".vcd"),
            lit "--assert-level=" ++ severity]).length = i := by
      simp only [List.length_append, List.length_cons, List.length_singleton,
        List.length_nil]
      omega
    rw [hidx, List.getElem?_map, List.getElem?_eq_getElem h]
    rfl

/-! ## Concrete runs used to settle the failure-propagation claims -/

/-- A voodoo run over an empty blueprint whose vivado child fails (every
subprocess returns code 1). -/
def voodooFailWorld : VoodooWorld :=
  { part := lit "xc7a35t", runStep := VStep.synth, generics := [],
    noBat := true, onWindows := false, top := lit "top",
    blueprint := [], oracle := fun _ => 1 }

/-- A voodoo run over an empty blueprint with all children succeeding. -/
def voodooOkWorld : VoodooWorld :=
  { part := lit "xc7a35t", runStep := VStep.synth, generics := [],
    noBat := true, onWindows := false, top := lit "top",
    blueprint := [], oracle := fun _ => 0 }

/-- An xsim target run compiling one file whose `xvhdl` child fails. -/
def xsimFailWorld : XsimT.World :=
  { generics := [], comp := true, elaborateFlag := false, sim := false,
    scriptOnly := false, simMode := 0, pyPath := lit "python3",
    bench := none, blueprint := [lit "VHDL-RTL\twork\tfoo.vhd"],
    wdbExists := true, log := [], oracle := fun _ => 1 }

/-- An xsim target run with the testbench environment value unset: the
compile stage still spawns `xvhdl` before the fatal testbench check. -/
def xsimNoBenchWorld : XsimT.World :=
  { generics := [], comp := true, elaborateFlag := false, sim := true,
    scriptOnly := false, simMode := 0, pyPath := lit "python3",
    bench := none, blueprint := [lit "VHDL-RTL\twork\tfoo.vhd"],
    wdbExists := true, log := [], oracle := fun _ => 0 }

/-- An xsim target run that only elaborates, with one parsed generic. -/
def xsimElabWorld : XsimT.World :=
  { generics := [some ⟨lit "WIDTH", lit "8"⟩], comp := false,
    elaborateFlag := true, sim := false, scriptOnly := false, simMode := 0,
    pyPath := lit "python3", bench := some (lit "tb"), blueprint := [],
    wdbExists := true, log := [], oracle := fun _ => 0 }

/-- An xsim target run given `-g WIDTH8` (no `=`): `Generic.from_str`
yields `None`, which is appended unchecked and crashes only at the
elaboration stage, after the compile subprocess has been spawned. -/
def xsimBadGenericWorld : XsimT.World :=
  { generics := [Generic.from_str (lit "WIDTH8")], comp := true,
    elaborateFlag := true, sim := false, scriptOnly := false, simMode := 0,
    pyPath := lit "python3", bench := some (lit "tb"),
    blueprint := [lit "VHDL-RTL\twork\tfoo.vhd"],
    wdbExists := true, log := [], oracle := fun _ => 0 }

/-! ## Claim theorems -/

/-- C1: the per-file read commands the voodoo target emits preserve the
blueprint's line order among records of the same fileset tag: for any two
`VHDL` records, wherever they sit in the blueprint, the final Tcl buffer
contains the first record's `read_vhdl` command strictly before the
second's; in particular `foo.vhd`'s command precedes `bar.vhd`'s. -/
theorem claim_C1 (t : Tcl) (xs ys zs : List Str) (la pa lb pb : Str) (t' : Tcl)
    (hla : tabFree la) (hpa : tabFree pa) (hlb : tabFree lb) (hpb : tabFree pb)
    (h : voodooReadSources
      (xs ++ mkLine (lit "VHDL") la pa :: (ys ++ mkLine (lit "VHDL") lb pb :: zs))
      t = .ok t') :
    ∃ A B C, t'.data =
      t.data ++ A ++ readVhdlText t.ind la pa ++ B ++ readVhdlText t.ind lb pb ++ C :=
  voodooReadSources_order t xs ys zs la pa lb pb t' hla hpa hlb hpb h

/-- C1 witness: the two-line blueprint `VHDL work foo.vhd` then
`VHDL work bar.vhd` emits `foo.vhd`'s read command before `bar.vhd`'s. -/
theorem claim_C1_witness :
    ∃ t', voodooReadSources
        ([] ++ mkLine (lit "VHDL") (lit "work") (lit "foo.vhd") ::
          ([] ++ mkLine (lit "VHDL") (lit "work") (lit "bar.vhd") :: []))
        (Tcl.new (lit "orbit.tcl")) = .ok t' ∧
      ∃ A B C, t'.data =
        (Tcl.new (lit "orbit.tcl")).data ++ A ++
          readVhdlText (Tcl.new (lit "orbit.tcl")).ind (lit "work") (lit "foo.vhd") ++ B ++
          readVhdlText (Tcl.new (lit "orbit.tcl")).ind (lit "work") (lit "bar.vhd") ++ C := by
  refine ⟨_, rfl, ?_⟩
  exact claim_C1 (Tcl.new (lit "orbit.tcl")) [] [] [] (lit "work") (lit "foo.vhd")
    (lit "work") (lit "bar.vhd") _ (by decide) (by decide) (by decide) (by decide) rfl

/-- C2 (amended): in the xsim target, where every subprocess is spawned
through `invoke` with `exit_on_err=True`, a child returning a non-zero
code is the last subprocess of the run and the script exits with code 1,
executing no further workflow stage.  (The voodoo target's final vivado
invocation is the exception recorded by the counterexample: its status is
never checked and the script exits 0 regardless.) -/
theorem claim_C2 (w : XsimT.World) (pre : List SpawnEvent) (s : SpawnEvent)
    (post : List SpawnEvent)
    (hspawn : (XsimT.run w).spawns = pre ++ s :: post) (hcode : s.code ≠ 0) :
    post = [] ∧ (XsimT.run w).outcome = Outcome.exited 1 :=
  XsimT.xsimRun_good w pre s post hspawn hcode

/-- C2 witness: a run whose single `xvhdl` child returns 1 stops there
with exit code 1. -/
theorem claim_C2_witness :
    ([] : List SpawnEvent) = [] ∧
      (XsimT.run xsimFailWorld).outcome = Outcome.exited 1 :=
  claim_C2 xsimFailWorld []
    ⟨lit "xvhdl", [lit "--incr", lit "--work", lit "work", lit "foo.vhd"], 1⟩ []
    (by decide) (by decide)

/-- C2 counterexample: the voodoo target spawns vivado, the child returns
code 1, and the script still terminates with exit code 0 — the claim's
"terminates with a non-zero exit code" fails on this script. -/
theorem claim_C2_counterexample :
    (voodooRun voodooFailWorld).spawns.map SpawnEvent.code = [1] ∧
      (voodooRun voodooFailWorld).outcome = Outcome.exited 0 :=
  ⟨rfl, rfl⟩

/-- C3 (amended): with the testbench environment value unset (or empty),
an xsim target run that requests a toolflow and is not `--script`-only
ends with a fatal non-zero outcome and never spawns the elaboration or
simulation subprocess — but compile-stage subprocesses (the software
model and `xvhdl`) may already have been spawned. -/
theorem claim_C3 (w : XsimT.World)
    (hbench : w.bench = none ∨ w.bench = some [])
    (hso : w.scriptOnly = false)
    (htf : (w.comp || w.elaborateFlag || w.sim) = true) :
    Outcome.isFatal (XsimT.run w).outcome = true ∧
      ∀ s ∈ (XsimT.run w).spawns, s.prog = w.pyPath ∨ s.prog = lit "xvhdl" :=
  XsimT.xsimRun_noBench w hbench hso htf

/-- C3 witness: instantiating the amended claim at the concrete
no-testbench run. -/
theorem claim_C3_witness :
    Outcome.isFatal (XsimT.run xsimNoBenchWorld).outcome = true ∧
      ∀ s ∈ (XsimT.run xsimNoBenchWorld).spawns,
        s.prog = xsimNoBenchWorld.pyPath ∨ s.prog = lit "xvhdl" :=
  claim_C3 xsimNoBenchWorld (Or.inl rfl) rfl rfl

/-- C3 counterexample: with the testbench unset the script does exit
fatally, but it has already spawned one `xvhdl` compile subprocess — the
claim's "spawns zero subprocesses" is false. -/
theorem claim_C3_counterexample :
    (XsimT.run xsimNoBenchWorld).spawns.length = 1 ∧
      (XsimT.run xsimNoBenchWorld).outcome = Outcome.exited 1 :=
  ⟨rfl, rfl⟩

/-- C4: any token containing `=` parses into a `Generic` (split on the
first `=`) whose `to_str` serialization is byte-identical to the original
token. -/
theorem claim_C4 (s : Str) (h : '=' ∈ s) :
    ∃ g, Generic.from_str s = some g ∧ g.to_str = s := by
  obtain ⟨a, b, hsplit, heq⟩ := pySplitMax_eq_mem s h
  refine ⟨⟨a, b⟩, ?_, heq⟩
  unfold Generic.from_str
  rw [hsplit]

/-- C4 witness: `WIDTH=8` round-trips byte-identically. -/
theorem claim_C4_witness :
    ∃ g, Generic.from_str (lit "WIDTH=8") = some g ∧ g.to_str = lit "WIDTH=8" :=
  claim_C4 (lit "WIDTH=8") (by decide)

/-- C5 (amended): a `-g` token lacking `=` is not rejected with a parse
error: `Generic.from_str` returns `None`, the `None` is appended to the
generics list unchecked, and the failure surfaces only later as an
`AttributeError` when the generics are serialized for the software-model
or elaboration stage — by which time compile subprocesses may already
have been spawned (see the counterexample). -/
theorem claim_C5 :
    (∀ s : Str, '=' ∉ s → Generic.from_str s = none) ∧
      (∀ gs gt : List (Option Generic), XsimT.genArgs (gs ++ none :: gt) = none) ∧
      (∀ gs gt : List (Option Generic), XsimT.pyGenerics (gs ++ none :: gt) = none) :=
  ⟨Generic.from_str_no_eq, XsimT.genArgs_none, XsimT.pyGenerics_none⟩

/-- C5 witness: `WIDTH8` parses to `None`, and a `None` in the list makes
the elaboration-stage serialization raise. -/
theorem claim_C5_witness :
    Generic.from_str (lit "WIDTH8") = none ∧
      XsimT.genArgs ([] ++ none :: []) = none :=
  ⟨claim_C5.1 (lit "WIDTH8") (by decide), claim_C5.2.1 [] []⟩

/-- C5 counterexample: given `-g WIDTH8` the parser yields `None` with no
error, the compile stage spawns its `xvhdl` subprocess, and only then the
run crashes at elaboration — the rejection does not happen before any
subprocess is spawned. -/
theorem claim_C5_counterexample :
    Generic.from_str (lit "WIDTH8") = none ∧
      (XsimT.run xsimBadGenericWorld).spawns.length = 1 ∧
      (XsimT.run xsimBadGenericWorld).outcome = Outcome.crashed :=
  ⟨rfl, rfl, rfl⟩

/-- C6: both blueprint parsers (voodoo's `split('\t', maxsplit=3)` and
xsim's `split('\t')`, each unpacked into three names) succeed exactly on
the lines with three tab-separated fields, returning those fields, and
raise an error on a line with fewer than three. -/
theorem claim_C6 (line : Str) :
    ((pySplit '\t' line).length < 3 →
      voodooSplitLine line = .error () ∧ xsimSplitLine line = .error ()) ∧
    (∀ a b c, voodooSplitLine line = .ok (a, b, c) → pySplit '\t' line = [a, b, c]) ∧
    (∀ a b c, xsimSplitLine line = .ok (a, b, c) → pySplit '\t' line = [a, b, c]) := by
  refine ⟨fun h => ⟨voodooSplitLine_short line h, xsimSplitLine_short line h⟩, ?_, ?_⟩
  · intro a b c h
    exact (voodooSplitLine_ok_iff line a b c).mp h
  · intro a b c h
    exact (xsimSplitLine_ok_iff line a b c).mp h

/-- C6 witness: a two-field line is rejected by both parsers. -/
theorem claim_C6_witness :
    voodooSplitLine (lit "VHDL\twork") = .error () ∧
      xsimSplitLine (lit "VHDL\twork") = .error () :=
  (claim_C6 (lit "VHDL\twork")).1 (by decide)

/-- C7: every `-g KEY=VALUE` override appears in the final vendor-tool
invocation exactly at its own slot, in command-line order, none dropped:
as `-gKEY=VALUE` in gsim's `ghdl -r` argument vector, and as a
`-generic_top KEY=VALUE` pair in the xsim target's `xelab` spawn. -/
theorem claim_C7 :
    (∀ (opts : List Str) (library tbName severity : Str) (gens : List Generic),
      (gsimSimArgs opts library tbName severity gens).length =
        opts.length + 5 + gens.length ∧
      ∀ i, ∀ h : i < gens.length,
        (gsimSimArgs opts library tbName severity gens)[opts.length + 5 + i]? =
          some (lit "-g" ++ (gens.get ⟨i, h⟩).to_str)) ∧
    (∀ (w : XsimT.World) (b : Str) (gs : List Generic),
      w.blueprint = [] → w.scriptOnly = false → w.elaborateFlag = true →
      w.bench = some b → b ≠ [] → w.generics = gs.map some →
      ∃ rest, (XsimT.run w).spawns =
        ⟨lit "xelab",
          [lit "-debug", lit "typical", lit "-top", b, lit "-snapshot", b] ++
            gs.flatMap (fun g => [lit "-generic_top", g.to_str]),
          w.oracle 0⟩ :: rest) :=
  ⟨gsimSimArgs_each,
    fun w b gs h1 h2 h3 h4 h5 h6 => XsimT.xsimRun_xelab_first w b gs h1 h2 h3 h4 h5 h6⟩

/-- C7 witness: `-g WIDTH=8` lands as `-gWIDTH=8` in the ghdl vector and
as `-generic_top WIDTH=8` in the xelab spawn. -/
theorem claim_C7_witness :
    (gsimSimArgs [] (lit "work") (lit "tb") (lit "error")
        [⟨lit "WIDTH", lit "8"⟩])[([] : List Str).length + 5 + 0]? =
      some (lit "-g" ++ (Generic.mk (lit "WIDTH") (lit "8")).to_str) ∧
    ∃ rest, (XsimT.run xsimElabWorld).spawns =
      ⟨lit "xelab",
        [lit "-debug", lit "typical", lit "-top", lit "tb", lit "-snapshot", lit "tb"] ++
          [Generic.mk (lit "WIDTH") (lit "8")].flatMap
            (fun g => [lit "-generic_top", g.to_str]),
        xsimElabWorld.oracle 0⟩ :: rest :=
  ⟨(claim_C7.1 [] (lit "work") (lit "tb") (lit "error")
      [⟨lit "WIDTH", lit "8"⟩]).2 0 (by decide),
    claim_C7.2 xsimElabWorld (lit "tb") [⟨lit "WIDTH", lit "8"⟩]
      rfl rfl rfl rfl (by decide) rfl⟩

/-- C8: a well-formed blueprint record with an unrecognized fileset tag is
silently ignored: the voodoo loop body leaves the Tcl emitter unchanged
and raises nothing, and the vsim classifier leaves its `rtl_order` bucket
unchanged — no normalization or validation of the tag spelling. -/
theorem claim_C8 (fs libName path : Str) (t : Tcl) (acc : List Hdl) (ru : Rule)
    (ha : tabFree fs) (hb : tabFree libName) (hc : tabFree path)
    (h1 : fs ≠ lit "VHDL") (h2 : fs ≠ lit "VLOG")
    (h3 : fs ≠ lit "SYSV") (h4 : fs ≠ lit "XDCF")
    (hr1 : ru.fset ≠ lit "VLOG") (hr2 : ru.fset ≠ lit "SYSV") :
    voodooReadStep (mkLine fs libName path) t = .ok t ∧ vsimStep acc ru = acc := by
  refine ⟨voodooReadStep_unknown fs libName path t ha hb hc h1 h2 h3 h4, ?_⟩
  unfold vsimStep
  rw [if_neg hr1, if_neg hr2]

/-- C8 witness: the tag `FOO` is ignored by both classifiers. -/
theorem claim_C8_witness :
    voodooReadStep (mkLine (lit "FOO") (lit "work") (lit "x.v"))
        (Tcl.new (lit "orbit.tcl")) = .ok (Tcl.new (lit "orbit.tcl")) ∧
      vsimStep [] ⟨lit "FOO", lit "work", lit "x.v"⟩ = [] :=
  claim_C8 (lit "FOO") (lit "work") (lit "x.v") (Tcl.new (lit "orbit.tcl")) []
    ⟨lit "FOO", lit "work", lit "x.v"⟩ (by decide) (by decide) (by decide)
    (by decide) (by decide) (by decide) (by decide) (by decide) (by decide)

/-- C9: the Tcl emitter's buffer is append-only under any sequence of
push/indent/dedent operations, and a successful voodoo run performs
exactly one file write: the whole accumulated buffer to `orbit.tcl`. -/
theorem claim_C9 :
    (∀ (ops : List TclOp) (st : Tcl),
      ∃ suf, (Tcl.applyOps st ops).data = st.data ++ suf) ∧
    (∀ (w : VoodooWorld) (t2 : Tcl),
      voodooReadSources w.blueprint voodooT1 = .ok t2 →
      (voodooRun w).writes = [⟨lit "orbit.tcl", (voodooFinalTcl w t2).data⟩]) := by
  constructor
  · intro ops st
    obtain ⟨suf, h, -⟩ := Tcl.applyOps_data ops st
    exact ⟨suf, h⟩
  · exact voodooRun_writes

/-- C9 witness: a concrete operation sequence only appends, and a
concrete successful run writes `orbit.tcl` exactly once. -/
theorem claim_C9_witness :
    (∃ suf, (Tcl.applyOps (Tcl.new (lit "orbit.tcl")) [TclOp.indentOp]).data =
      (Tcl.new (lit "orbit.tcl")).data ++ suf) ∧
    (voodooRun voodooOkWorld).writes =
      [⟨lit "orbit.tcl", (voodooFinalTcl voodooOkWorld voodooT1).data⟩] :=
  ⟨claim_C9.1 [TclOp.indentOp] (Tcl.new (lit "orbit.tcl")),
    claim_C9.2 voodooOkWorld voodooT1 rfl⟩

/-- C10: over any operation sequence starting from a fresh emitter the
indentation depth stays non-negative, and `dedent` at depth zero is a
no-op (the decrement is clamped back to zero), so every pushed line is
prefixed by a non-negative number of two-space indent units. -/
theorem claim_C10 :
    (∀ (ops : List TclOp) (p : Str), 0 ≤ (Tcl.applyOps (Tcl.new p) ops).ind) ∧
    (∀ p d : Str, Tcl.dedent ⟨p, d, 0⟩ = ⟨p, d, 0⟩) := by
  constructor
  · intro ops p
    exact Tcl.applyOps_ind ops (Tcl.new p) le_rfl
  · intro p d
    rfl

end OrbitTargets
